import Mathlib

/-!
# Verification of the Berghain-challenge admission engine

Shallow embedding of `src/game.py` (`GameController`): the probability
model (`_initialize_probabilities`), the admission state, the decision
engine (`_compute_expected_future_supply`, `_compute_alphas`,
`_should_force_accept`, `_compute_score`, `make_decision`,
`update_state`) and the session-driver loop (`run_game`).

Python dicts are modelled as association lists `List (String × α)` with
first-match lookup; a failing dict subscript (Python `KeyError`) and the
domain error of `math.sqrt` (Python `ValueError`) are modelled with
`Except PyErr`.  Python floats are idealised as `ℚ` in the decision path
and as `ℝ` where `math.sqrt` appears (the joint-probability table).
Machine integers are `ℤ`.
-/

set_option autoImplicit false

namespace Berghain

/-- The Python exceptions the embedded code can raise: `KeyError` from a
dict subscript, `ValueError` from `math.sqrt` on a negative argument. -/
inductive PyErr where
  | keyError : PyErr
  | valueError : PyErr
  deriving DecidableEq, Repr

/-- First-match lookup in an association list: the meaning of a Python
dict subscript `d[k]` (Python dict keys are unique; on lists with
duplicate keys this picks the first, which is the insertion-order
semantics). -/
def dlookup {α : Type} (k : String) : List (String × α) → Option α
  | [] => none
  | (a, v) :: t => if a = k then some v else dlookup k t

/-- The mutable fields of `GameController` that the decision engine and
the state transition read or write. -/
structure GameState where
  /-- `self.p_a`: marginal probability per attribute (`relativeFrequencies`). -/
  p_a : List (String × ℚ)
  /-- `self.remaining_required`: `minCount` per constrained attribute. -/
  remaining_required : List (String × ℤ)
  /-- `self.accepted_counts`: accepted entities carrying each attribute. -/
  accepted_counts : List (String × ℤ)
  /-- `self.R`: remaining venue slots. -/
  R : ℤ
  /-- `self.rejects`: rejected entities so far. -/
  rejects : ℤ
  /-- `self.N`: total venue capacity. -/
  N : ℤ
  deriving DecidableEq, Repr

/-- `self.MAX_REJECTS` (game.py line 20). -/
def MAX_REJECTS : ℤ := 20000

/-- A candidate's `person_attributes` dict, in iteration order. -/
abbrev Candidate := List (String × Bool)

/-- `GameController._compute_expected_future_supply`:
`{a: self.R * self.p_a[a] for a in self.p_a.keys()}`. -/
def computeExpectedFutureSupply (s : GameState) : List (String × ℚ) :=
  s.p_a.map (fun p => (p.1, (s.R : ℚ) * p.2))

/-- `GameController._should_force_accept`: iterate over the candidate's
attributes; for each carried one, `KeyError` if `remaining_required`,
`accepted_counts` or `expected_future` lacks the key, else return `True`
as soon as `expected_future[attr] < max(0, remaining_required[attr] -
accepted_counts[attr])`. -/
def shouldForceAccept (s : GameState) (expectedFuture : List (String × ℚ)) :
    Candidate → Except PyErr Bool
  | [] => .ok false
  | (attr, has) :: rest =>
    if has then
      match dlookup attr s.remaining_required, dlookup attr s.accepted_counts,
          dlookup attr expectedFuture with
      | some req, some acc, some ef =>
        if ef < ((max 0 (req - acc) : ℤ) : ℚ) then .ok true
        else shouldForceAccept s expectedFuture rest
      | _, _, _ => .error .keyError
    else shouldForceAccept s expectedFuture rest

/-- Helper for `_compute_alphas`: the loop `for a in self.p_a.keys()`,
building `alphas[a] = max(0, remaining_required[a] - accepted_counts[a])
/ (R + 1e-9)`; a missing key raises `KeyError`. -/
def computeAlphasAux (s : GameState) :
    List (String × ℚ) → Except PyErr (List (String × ℚ))
  | [] => .ok []
  | (a, _) :: t =>
    match dlookup a s.remaining_required, dlookup a s.accepted_counts with
    | some req, some acc =>
      match computeAlphasAux s t with
      | .error e => .error e
      | .ok rest =>
        .ok ((a, ((max 0 (req - acc) : ℤ) : ℚ) / ((s.R : ℚ) + 1 / 1000000000)) :: rest)
    | _, _ => .error .keyError

/-- `GameController._compute_alphas`. -/
def computeAlphas (s : GameState) : Except PyErr (List (String × ℚ)) :=
  computeAlphasAux s s.p_a

/-- The score accumulation of `_compute_score`: `score += alphas[attr]`
for each carried attribute present in `alphas`. -/
def sumScore (alphas : List (String × ℚ)) (cand : Candidate) : ℚ :=
  cand.foldl
    (fun sc p =>
      if p.2 then
        match dlookup p.1 alphas with
        | some v => sc + v
        | none => sc
      else sc) 0

/-- `GameController._compute_score`. -/
def computeScore (s : GameState) (cand : Candidate) : Except PyErr ℚ :=
  match computeAlphas s with
  | .error e => .error e
  | .ok alphas => .ok (sumScore alphas cand)

/-- `GameController.make_decision`: forced-accept check first, then the
scoring rule `score > 0 and self.R > 0`. -/
def makeDecision (s : GameState) (cand : Candidate) : Except PyErr Bool :=
  match shouldForceAccept s (computeExpectedFutureSupply s) cand with
  | .error e => .error e
  | .ok forced =>
    if forced then .ok true
    else
      match computeScore s cand with
      | .error e => .error e
      | .ok score => .ok (decide (0 < score) && decide (0 < s.R))

/-- `self.accepted_counts[attr] += 1`: update the value at an existing
key, leave the list unchanged when the key is absent. -/
def bumpAt (k : String) (m : List (String × ℤ)) : List (String × ℤ) :=
  m.map (fun p => if p.1 = k then (p.1, p.2 + 1) else p)

/-- The accept branch of `update_state`: `for attr, has_attr in
person_attributes.items(): if has_attr and attr in self.accepted_counts:
self.accepted_counts[attr] += 1`. -/
def updateCounts (cand : Candidate) (counts : List (String × ℤ)) :
    List (String × ℤ) :=
  cand.foldl
    (fun m p => if p.2 = true ∧ (dlookup p.1 m).isSome then bumpAt p.1 m else m)
    counts

/-- `GameController.update_state`. -/
def updateState (accepted : Bool) (cand : Candidate) (s : GameState) : GameState :=
  if accepted then
    { s with R := s.R - 1, accepted_counts := updateCounts cand s.accepted_counts }
  else
    { s with rejects := s.rejects + 1 }

/-- The `attributeStatistics` payload: `relativeFrequencies` and
`correlations`, both dicts keyed by attribute name. -/
structure Stats where
  relativeFrequencies : List (String × ℚ)
  correlations : List (String × List (String × ℚ))
  deriving DecidableEq, Repr

/-- `math.sqrt`: `ValueError` on a negative argument, else the real
square root. -/
noncomputable def pySqrt (x : ℚ) : Except PyErr ℝ :=
  if x < 0 then .error .valueError else .ok (Real.sqrt (x : ℝ))

/-- The inner loop of `_initialize_probabilities` building row
`self.P11[a]`: for each `(b, p_b)` of the statistics in order, the
diagonal entry is `p_a`, and off the diagonal
`correlations[a][b] * sqrt(p_a*(1-p_a)*p_b*(1-p_b)) + p_a*p_b`, with a
`KeyError` when the correlation entry is missing. -/
noncomputable def buildP11Row (corr : List (String × List (String × ℚ)))
    (a : String) (pa : ℚ) :
    List (String × ℚ) → Except PyErr (List (String × ℝ))
  | [] => .ok []
  | (b, pb) :: rest =>
    if a = b then
      match buildP11Row corr a pa rest with
      | .error e => .error e
      | .ok r => .ok ((b, (pa : ℝ)) :: r)
    else
      match dlookup a corr with
      | none => .error .keyError
      | some row =>
        match dlookup b row with
        | none => .error .keyError
        | some rho =>
          match pySqrt (pa * (1 - pa) * pb * (1 - pb)) with
          | .error e => .error e
          | .ok sq =>
            match buildP11Row corr a pa rest with
            | .error e => .error e
            | .ok r => .ok ((b, (rho : ℝ) * sq + (pa : ℝ) * (pb : ℝ)) :: r)

/-- The outer loop of `_initialize_probabilities`: one row per attribute
of the statistics, in order. -/
noncomputable def initP11Aux (corr : List (String × List (String × ℚ)))
    (all : List (String × ℚ)) :
    List (String × ℚ) → Except PyErr (List (String × List (String × ℝ)))
  | [] => .ok []
  | (a, pa) :: rest =>
    match buildP11Row corr a pa all with
    | .error e => .error e
    | .ok row =>
      match initP11Aux corr all rest with
      | .error e => .error e
      | .ok t => .ok ((a, row) :: t)

/-- `GameController._initialize_probabilities`: builds `self.P11` from
`self.p_a` and the correlation matrix. -/
noncomputable def initializeProbabilities (stats : Stats) :
    Except PyErr (List (String × List (String × ℝ))) :=
  initP11Aux stats.correlations stats.relativeFrequencies stats.relativeFrequencies

/-- A dict subscript `self.p_a[attr]`: the marginal of an unknown
attribute raises `KeyError`. -/
def marginalLookup (stats : Stats) (attr : String) : Except PyErr ℚ :=
  match dlookup attr stats.relativeFrequencies with
  | some p => .ok p
  | none => .error .keyError

/-- One `nextPerson` payload of the external service. -/
structure Person where
  personIndex : ℤ
  attributes : Candidate
  deriving DecidableEq, Repr

/-- One response of the external `/decide-and-next` endpoint, as far as
`run_game` reads it. -/
structure GameResponse where
  status : String
  nextPerson : Option Person
  deriving DecidableEq, Repr

/-- The `while` loop of `GameController.run_game`, driven by the
sequence of responses the external service returns (`resp` is the
response currently in hand, `rest` the later ones; an empty `rest`
models the `if not response: break` exit).  A missing `nextPerson` or an
exception from `make_decision` aborts the loop with the state unchanged
by that candidate.  Returns the final state together with the list of
(state, response) pairs at which a candidate's decision was completed. -/
def runLoop (s : GameState) (resp : GameResponse) (rest : List GameResponse) :
    GameState × List (GameState × GameResponse) :=
  if resp.status = "running" ∧ 0 < s.R ∧ s.rejects < MAX_REJECTS then
    match resp.nextPerson with
    | none => (s, [])
    | some person =>
      match makeDecision s person.attributes with
      | .error _ => (s, [])
      | .ok d =>
        let s' := updateState d person.attributes s
        match rest with
        | [] => (s', [(s, resp)])
        | r :: rs =>
          let out := runLoop s' r rs
          (out.1, (s, resp) :: out.2)
  else (s, [])
termination_by rest.length
decreasing_by simp

/-- The condition of the forced-accept rule for a single attribute:
all three dict lookups succeed and
`capacity_remaining * marginal(a) < max(0, required[a] - accepted_count[a])`. -/
def ForceCond (s : GameState) (a : String) : Prop :=
  ∃ req acc pa,
    dlookup a s.remaining_required = some req ∧
    dlookup a s.accepted_counts = some acc ∧
    dlookup a s.p_a = some pa ∧
    (s.R : ℚ) * pa < ((max 0 (req - acc) : ℤ) : ℚ)

/-- All attributes carried by the candidate are known to the three
dicts read by `_should_force_accept`. -/
def CarriedKnown (s : GameState) (cand : Candidate) : Prop :=
  ∀ p ∈ cand, p.2 = true →
    (dlookup p.1 s.remaining_required).isSome ∧
    (dlookup p.1 s.accepted_counts).isSome ∧
    (dlookup p.1 s.p_a).isSome

instance (s : GameState) (cand : Candidate) : Decidable (CarriedKnown s cand) := by
  unfold CarriedKnown; infer_instance

section Lemmas

lemma dlookup_map {α β : Type} (f : α → β) (k : String) (l : List (String × α)) :
    dlookup k (l.map (fun p => (p.1, f p.2))) = (dlookup k l).map f := by
  induction l with
  | nil => rfl
  | cons hd tl ih => by_cases h : hd.1 = k <;> simp [dlookup, h, ih]

lemma dlookup_mem {α : Type} {k : String} {v : α} {l : List (String × α)}
    (h : dlookup k l = some v) : (k, v) ∈ l := by
  induction l with
  | nil => simp [dlookup] at h
  | cons hd tl ih =>
    obtain ⟨a, v'⟩ := hd
    rw [dlookup] at h
    by_cases heq : a = k
    · rw [if_pos heq] at h
      cases h
      subst heq
      exact List.mem_cons_self _ _
    · rw [if_neg heq] at h
      exact List.mem_cons_of_mem _ (ih h)

lemma dlookup_expectedFuture (s : GameState) (a : String) :
    dlookup a (computeExpectedFutureSupply s) =
      (dlookup a s.p_a).map (fun p => (s.R : ℚ) * p) :=
  dlookup_map _ a s.p_a

lemma forceAccept_iff (s : GameState) (cand : Candidate) (h : CarriedKnown s cand) :
    shouldForceAccept s (computeExpectedFutureSupply s) cand = .ok true ↔
      ∃ a, (a, true) ∈ cand ∧ ForceCond s a := by
  induction cand with
  | nil => simp [shouldForceAccept]
  | cons hd tl ih =>
    obtain ⟨attr, has⟩ := hd
    have htl : CarriedKnown s tl := fun p hp => h p (List.mem_cons_of_mem _ hp)
    by_cases hhas : has
    · subst hhas
      obtain ⟨h1, h2, h3⟩ := h (attr, true) (List.mem_cons_self _ _) rfl
      obtain ⟨req, hreq⟩ := Option.isSome_iff_exists.mp h1
      obtain ⟨acc, hacc⟩ := Option.isSome_iff_exists.mp h2
      obtain ⟨pa, hpa⟩ := Option.isSome_iff_exists.mp h3
      have hef : dlookup attr (computeExpectedFutureSupply s) = some ((s.R : ℚ) * pa) := by
        rw [dlookup_expectedFuture, hpa]
        rfl
      simp only [shouldForceAccept, if_true, hreq, hacc, hef]
      by_cases hlt : (s.R : ℚ) * pa < ((max 0 (req - acc) : ℤ) : ℚ)
      · rw [if_pos hlt]
        simp only [true_iff]
        exact ⟨attr, List.mem_cons_self _ _, req, acc, pa, hreq, hacc, hpa, hlt⟩
      · rw [if_neg hlt, ih htl]
        constructor
        · rintro ⟨a, ha, hc⟩
          exact ⟨a, List.mem_cons_of_mem _ ha, hc⟩
        · rintro ⟨a, ha, hc⟩
          rcases List.mem_cons.mp ha with heq | hmem
          · obtain ⟨req', acc', pa', hreq', hacc', hpa', hlt'⟩ := hc
            have : a = attr := (Prod.mk.injEq _ _ _ _).mp heq |>.1
            subst this
            rw [hreq'] at hreq
            rw [hacc'] at hacc
            rw [hpa'] at hpa
            cases hreq; cases hacc; cases hpa
            exact absurd hlt' hlt
          · exact ⟨a, hmem, hc⟩
    · have hhas' : has = false := Bool.eq_false_iff.mpr hhas
      subst hhas'
      rw [shouldForceAccept, if_neg (by simp), ih htl]
      constructor
      · rintro ⟨a, ha, hc⟩
        exact ⟨a, List.mem_cons_of_mem _ ha, hc⟩
      · rintro ⟨a, ha, hc⟩
        rcases List.mem_cons.mp ha with heq | hmem
        · cases heq
        · exact ⟨a, hmem, hc⟩

lemma makeDecision_of_force (s : GameState) (cand : Candidate)
    (h : shouldForceAccept s (computeExpectedFutureSupply s) cand = .ok true) :
    makeDecision s cand = .ok true := by
  rw [makeDecision, h]
  rfl

lemma computeAlphasAux_isOk (s : GameState) (l : List (String × ℚ))
    (h : ∀ p ∈ l, (dlookup p.1 s.remaining_required).isSome ∧
      (dlookup p.1 s.accepted_counts).isSome) :
    ∃ alphas, computeAlphasAux s l = .ok alphas := by
  induction l with
  | nil => exact ⟨[], rfl⟩
  | cons hd tl ih =>
    obtain ⟨a, q⟩ := hd
    obtain ⟨h1, h2⟩ := h (a, q) (List.mem_cons_self _ _)
    obtain ⟨req, hreq⟩ := Option.isSome_iff_exists.mp h1
    obtain ⟨acc, hacc⟩ := Option.isSome_iff_exists.mp h2
    obtain ⟨rest, hrest⟩ := ih (fun p hp => h p (List.mem_cons_of_mem _ hp))
    refine ⟨(a, ((max 0 (req - acc) : ℤ) : ℚ) / ((s.R : ℚ) + 1 / 1000000000)) :: rest, ?_⟩
    simp only [computeAlphasAux, hreq, hacc, hrest]

lemma computeAlphasAux_ok_forall (s : GameState) (l : List (String × ℚ))
    (alphas : List (String × ℚ)) (h : computeAlphasAux s l = .ok alphas) :
    ∀ p ∈ l, (dlookup p.1 s.remaining_required).isSome ∧
      (dlookup p.1 s.accepted_counts).isSome := by
  induction l generalizing alphas with
  | nil => intro p hp; simp at hp
  | cons hd tl ih =>
    obtain ⟨a, q⟩ := hd
    rw [computeAlphasAux] at h
    split at h
    · rename_i req acc hreq hacc
      split at h
      · exact absurd h (by simp)
      · rename_i rest hrest
        intro p hp
        rcases List.mem_cons.mp hp with heq | hmem
        · subst heq
          exact ⟨by rw [hreq]; rfl, by rw [hacc]; rfl⟩
        · exact ih rest hrest p hmem
    · exact absurd h (by simp)

lemma computeAlphasAux_error (s : GameState) (l : List (String × ℚ))
    (e : PyErr) (h : computeAlphasAux s l = .error e) : e = .keyError := by
  induction l with
  | nil => simp [computeAlphasAux] at h
  | cons hd tl ih =>
    obtain ⟨a, q⟩ := hd
    rw [computeAlphasAux] at h
    split at h
    · split at h
      · rename_i e' he'
        cases h
        exact ih he'
      · exact absurd h (by simp)
    · cases h
      rfl

lemma computeAlphasAux_lookup (s : GameState) (l : List (String × ℚ))
    (alphas : List (String × ℚ)) (h : computeAlphasAux s l = .ok alphas) :
    ∀ a v, dlookup a alphas = some v → ∃ req acc,
      dlookup a s.remaining_required = some req ∧
      dlookup a s.accepted_counts = some acc ∧
      v = ((max 0 (req - acc) : ℤ) : ℚ) / ((s.R : ℚ) + 1 / 1000000000) := by
  induction l generalizing alphas with
  | nil =>
    cases h
    intro a v hv
    simp [dlookup] at hv
  | cons hd tl ih =>
    obtain ⟨a0, q⟩ := hd
    rw [computeAlphasAux] at h
    split at h
    · rename_i req acc hreq hacc
      split at h
      · exact absurd h (by simp)
      · rename_i rest hrest
        cases h
        intro a v hv
        rw [dlookup] at hv
        by_cases ha : a0 = a
        · rw [if_pos ha] at hv
          cases hv
          subst ha
          exact ⟨req, acc, hreq, hacc, rfl⟩
        · rw [if_neg ha] at hv
          exact ih rest hrest a v hv
    · exact absurd h (by simp)

lemma sumScore_eq_zero (alphas : List (String × ℚ)) (cand : Candidate)
    (h : ∀ a v, (a, true) ∈ cand → dlookup a alphas = some v → v = 0) :
    sumScore alphas cand = 0 := by
  have main : ∀ (c : Candidate) (init : ℚ),
      (∀ a v, (a, true) ∈ c → dlookup a alphas = some v → v = 0) →
      c.foldl
        (fun sc p =>
          if p.2 then
            match dlookup p.1 alphas with
            | some v => sc + v
            | none => sc
          else sc) init = init := by
    intro c
    induction c with
    | nil => intro init _; rfl
    | cons hd tl ih =>
      intro init hc
      obtain ⟨a, has⟩ := hd
      rw [List.foldl_cons]
      have htl : ∀ a v, (a, true) ∈ tl → dlookup a alphas = some v → v = 0 :=
        fun a v hm hv => hc a v (List.mem_cons_of_mem _ hm) hv
      by_cases hhas : has
      · subst hhas
        cases hla : dlookup a alphas with
        | none => simpa [hla] using ih init htl
        | some v =>
          have hv0 : v = 0 := hc a v (List.mem_cons_self _ _) hla
          subst hv0
          simpa [hla] using ih init htl
      · have : has = false := Bool.eq_false_iff.mpr hhas
        subst this
        simpa using ih init htl
  exact main cand 0 h

lemma dlookup_bumpAt (k a : String) (m : List (String × ℤ)) :
    dlookup a (bumpAt k m) =
      if a = k then (dlookup a m).map (· + 1) else dlookup a m := by
  induction m with
  | nil => simp [bumpAt, dlookup]
  | cons hd tl ih =>
    obtain ⟨b, v⟩ := hd
    simp only [bumpAt, List.map_cons] at ih ⊢
    by_cases hbk : b = k
    · subst hbk
      rw [if_pos rfl]
      by_cases hba : b = a
      · subst hba
        simp [dlookup]
      · simp [dlookup, hba, ih]
    · rw [if_neg hbk]
      by_cases hba : b = a
      · subst hba
        have : ¬b = k := hbk
        simp [dlookup, this]
      · simp [dlookup, hba, ih]

lemma updateCounts_cons (k : String) (hb : Bool) (tl : Candidate)
    (m : List (String × ℤ)) :
    updateCounts ((k, hb) :: tl) m =
      updateCounts tl
        (if hb = true ∧ (dlookup k m).isSome then bumpAt k m else m) := rfl

lemma updateCounts_no_key (cand : Candidate) (m : List (String × ℤ)) (a : String)
    (ha : ∀ p ∈ cand, p.1 ≠ a) :
    dlookup a (updateCounts cand m) = dlookup a m := by
  induction cand generalizing m with
  | nil => rfl
  | cons hd tl ih =>
    obtain ⟨k, hb⟩ := hd
    rw [updateCounts_cons]
    rw [ih _ (fun p hp => ha p (List.mem_cons_of_mem _ hp))]
    have hka : ¬a = k := fun he => ha (k, hb) (List.mem_cons_self _ _) he.symm
    split
    · rw [dlookup_bumpAt, if_neg hka]
    · rfl

lemma updateCounts_lookup (cand : Candidate) (m : List (String × ℤ)) (a : String)
    (hnodup : (cand.map Prod.fst).Nodup) :
    dlookup a (updateCounts cand m) =
      if (a, true) ∈ cand ∧ (dlookup a m).isSome
      then (dlookup a m).map (· + 1)
      else dlookup a m := by
  induction cand generalizing m with
  | nil => simp [updateCounts]
  | cons hd tl ih =>
    obtain ⟨k, hb⟩ := hd
    rw [List.map_cons] at hnodup
    obtain ⟨hk, hnd⟩ := List.nodup_cons.mp hnodup
    rw [updateCounts_cons]
    by_cases hak : a = k
    · subst hak
      have hno : ∀ p ∈ tl, p.1 ≠ a := by
        intro p hp he
        exact hk (List.mem_map.mpr ⟨p, hp, he⟩)
      rw [updateCounts_no_key tl _ a hno]
      have hmemtl : (a, true) ∉ tl := fun hmem =>
        hk (List.mem_map.mpr ⟨(a, true), hmem, rfl⟩)
      by_cases hhb : hb = true
      · subst hhb
        by_cases hs : (dlookup a m).isSome
        · rw [if_pos ⟨rfl, hs⟩, dlookup_bumpAt, if_pos rfl,
            if_pos ⟨List.mem_cons_self _ _, hs⟩]
        · rw [if_neg (fun hc => hs hc.2), if_neg (fun hc => hs hc.2)]
      · rw [if_neg (fun hc => hhb hc.1)]
        have : (a, true) ∉ (a, hb) :: tl := by
          intro hmem
          rcases List.mem_cons.mp hmem with heq | hmem'
          · exact hhb (congrArg Prod.snd heq).symm
          · exact hmemtl hmem'
        rw [if_neg (fun hc => this hc.1)]
    · have heq : dlookup a (if hb = true ∧ (dlookup k m).isSome then bumpAt k m else m) =
          dlookup a m := by
        split
        · rw [dlookup_bumpAt, if_neg hak]
        · rfl
      rw [ih _ hnd, heq]
      have hmem : ((a, true) ∈ (k, hb) :: tl) ↔ ((a, true) ∈ tl) := by
        rw [List.mem_cons]
        constructor
        · rintro (heq' | h')
          · exact absurd (congrArg Prod.fst heq') hak
          · exact h'
        · exact fun h' => Or.inr h'
      by_cases hmtl : (a, true) ∈ tl
      · by_cases hs : (dlookup a m).isSome
        · rw [if_pos ⟨hmtl, hs⟩, if_pos ⟨hmem.mpr hmtl, hs⟩]
        · rw [if_neg (fun hc => hs hc.2), if_neg (fun hc => hs hc.2)]
      · rw [if_neg (fun hc => hmtl hc.1), if_neg (fun hc => hmtl (hmem.mp hc.1))]

end Lemmas

/-- Claim C1: `make_decision` force-accepts (returns accept before any
scoring) exactly when some carried attribute `a` satisfies
`capacity_remaining * marginal(a) < max(0, required[a] - accepted_count[a])`,
with `capacity_remaining` taken before the decision is applied;
provided every carried attribute is known to the state's dicts. -/
theorem forced_accept_rule (s : GameState) (cand : Candidate) (h : CarriedKnown s cand) :
    (shouldForceAccept s (computeExpectedFutureSupply s) cand = .ok true ↔
      ∃ a, (a, true) ∈ cand ∧ ForceCond s a) ∧
    (shouldForceAccept s (computeExpectedFutureSupply s) cand = .ok true →
      makeDecision s cand = .ok true) :=
  ⟨forceAccept_iff s cand h, makeDecision_of_force s cand⟩

/-- Witness for C1 at the first candidate of the specification's worked
scenario (capacity 3, `marginal(A) = 1/2`, `required[A] = 2`). -/
theorem forced_accept_rule_witness :
    CarriedKnown ⟨[("A", 1/2)], [("A", 2)], [("A", 0)], 3, 0, 3⟩ [("A", true)] ∧
    ((shouldForceAccept ⟨[("A", 1/2)], [("A", 2)], [("A", 0)], 3, 0, 3⟩
        (computeExpectedFutureSupply ⟨[("A", 1/2)], [("A", 2)], [("A", 0)], 3, 0, 3⟩)
        [("A", true)] = .ok true ↔
      ∃ a, (a, true) ∈ ([("A", true)] : Candidate) ∧
        ForceCond ⟨[("A", 1/2)], [("A", 2)], [("A", 0)], 3, 0, 3⟩ a) ∧
    (shouldForceAccept ⟨[("A", 1/2)], [("A", 2)], [("A", 0)], 3, 0, 3⟩
        (computeExpectedFutureSupply ⟨[("A", 1/2)], [("A", 2)], [("A", 0)], 3, 0, 3⟩)
        [("A", true)] = .ok true →
      makeDecision ⟨[("A", 1/2)], [("A", 2)], [("A", 0)], 3, 0, 3⟩ [("A", true)] = .ok true)) :=
  ⟨by decide, forced_accept_rule _ _ (by decide)⟩

/-- Claim C2: when not force-accepted, `make_decision` accepts iff
`score > 0` and `capacity_remaining > 0`, where the score sums
`alpha[a] = max(0, required[a] - accepted_count[a]) / (capacity_remaining + 1e-9)`
over the carried attributes; a candidate carrying no attribute with
positive need scores exactly 0 and is rejected even with capacity left. -/
theorem scoring_acceptance_rule (s : GameState) (cand : Candidate)
    (hforce : shouldForceAccept s (computeExpectedFutureSupply s) cand = .ok false)
    (halpha : ∀ p ∈ s.p_a, (dlookup p.1 s.remaining_required).isSome ∧
      (dlookup p.1 s.accepted_counts).isSome) :
    ∃ alphas, computeAlphas s = .ok alphas ∧
      computeScore s cand = .ok (sumScore alphas cand) ∧
      (∀ a v, dlookup a alphas = some v → ∃ req acc,
        dlookup a s.remaining_required = some req ∧
        dlookup a s.accepted_counts = some acc ∧
        v = ((max 0 (req - acc) : ℤ) : ℚ) / ((s.R : ℚ) + 1 / 1000000000)) ∧
      (makeDecision s cand = .ok true ↔ 0 < sumScore alphas cand ∧ 0 < s.R) ∧
      ((∀ a req acc, (a, true) ∈ cand → dlookup a s.remaining_required = some req →
          dlookup a s.accepted_counts = some acc → req ≤ acc) →
        sumScore alphas cand = 0 ∧ makeDecision s cand = .ok false) := by
  obtain ⟨alphas, halphas⟩ := computeAlphasAux_isOk s s.p_a halpha
  have hca : computeAlphas s = .ok alphas := by rw [computeAlphas]; exact halphas
  have hscore : computeScore s cand = .ok (sumScore alphas cand) := by
    rw [computeScore, hca]
  refine ⟨alphas, hca, hscore, computeAlphasAux_lookup s s.p_a alphas halphas, ?_, ?_⟩
  · simp only [makeDecision, hforce, hscore]
    simp [Bool.and_eq_true, decide_eq_true_eq]
  · intro hneed
    have hzero : sumScore alphas cand = 0 := by
      refine sumScore_eq_zero alphas cand ?_
      intro a v hmem hv
      obtain ⟨req, acc, hreq, hacc, hval⟩ :=
        computeAlphasAux_lookup s s.p_a alphas halphas a v hv
      have hle : req ≤ acc := hneed a req acc hmem hreq hacc
      have hmax : max 0 (req - acc) = 0 := max_eq_left (sub_nonpos.mpr hle)
      rw [hval, hmax]
      simp
    refine ⟨hzero, ?_⟩
    simp only [makeDecision, hforce, hscore, hzero]
    simp

/-- Witness for C2: the state before the scenario's fourth candidate
still has need for `A`, so the score is positive and the candidate is
accepted; the hypotheses are checked at that state. -/
theorem scoring_acceptance_rule_witness :
    shouldForceAccept ⟨[("A", 1/2)], [("A", 2)], [("A", 1)], 2, 2, 3⟩
      (computeExpectedFutureSupply ⟨[("A", 1/2)], [("A", 2)], [("A", 1)], 2, 2, 3⟩)
      [("A", true)] = .ok false ∧
    (∀ p ∈ ([("A", (1 : ℚ)/2)] : List (String × ℚ)),
      (dlookup p.1 ([("A", (2 : ℤ))] : List (String × ℤ))).isSome ∧
      (dlookup p.1 ([("A", (1 : ℤ))] : List (String × ℤ))).isSome) ∧
    (∃ alphas, computeAlphas ⟨[("A", 1/2)], [("A", 2)], [("A", 1)], 2, 2, 3⟩ = .ok alphas ∧
      computeScore ⟨[("A", 1/2)], [("A", 2)], [("A", 1)], 2, 2, 3⟩ [("A", true)] =
        .ok (sumScore alphas [("A", true)]) ∧
      (∀ a v, dlookup a alphas = some v → ∃ req acc,
        dlookup a ([("A", (2 : ℤ))] : List (String × ℤ)) = some req ∧
        dlookup a ([("A", (1 : ℤ))] : List (String × ℤ)) = some acc ∧
        v = ((max 0 (req - acc) : ℤ) : ℚ) / (((2 : ℤ) : ℚ) + 1 / 1000000000)) ∧
      (makeDecision ⟨[("A", 1/2)], [("A", 2)], [("A", 1)], 2, 2, 3⟩ [("A", true)] = .ok true ↔
        0 < sumScore alphas [("A", true)] ∧ 0 < (2 : ℤ)) ∧
      ((∀ a req acc, (a, true) ∈ ([("A", true)] : Candidate) →
          dlookup a ([("A", (2 : ℤ))] : List (String × ℤ)) = some req →
          dlookup a ([("A", (1 : ℤ))] : List (String × ℤ)) = some acc → req ≤ acc) →
        sumScore alphas [("A", true)] = 0 ∧
        makeDecision ⟨[("A", 1/2)], [("A", 2)], [("A", 1)], 2, 2, 3⟩ [("A", true)] = .ok false)) :=
  ⟨by norm_num [shouldForceAccept, computeExpectedFutureSupply, dlookup], by decide,
    scoring_acceptance_rule ⟨[("A", 1/2)], [("A", 2)], [("A", 1)], 2, 2, 3⟩ [("A", true)]
      (by norm_num [shouldForceAccept, computeExpectedFutureSupply, dlookup]) (by decide)⟩

/-- Claim C3 (code bug evidence): with statistics and constraints over
`A` only, a candidate carrying the unknown attribute `B` makes
`make_decision` raise `KeyError` inside `_should_force_accept` — yet
`_compute_score` ignores `B` (score 0), `update_state` on accept leaves
`accepted_counts` untouched and only decrements capacity, and a
candidate merely listing `B` as absent is processed normally. -/
theorem unknown_attribute_behavior :
    makeDecision ⟨[("A", 1/2)], [("A", 2)], [("A", 0)], 3, 0, 3⟩ [("B", true)] =
      .error .keyError ∧
    computeScore ⟨[("A", 1/2)], [("A", 2)], [("A", 0)], 3, 0, 3⟩ [("B", true)] = .ok 0 ∧
    updateState true [("B", true)] ⟨[("A", 1/2)], [("A", 2)], [("A", 0)], 3, 0, 3⟩ =
      ⟨[("A", 1/2)], [("A", 2)], [("A", 0)], 2, 0, 3⟩ ∧
    makeDecision ⟨[("A", 1/2)], [("A", 2)], [("A", 0)], 3, 0, 3⟩ [("B", false)] =
      .ok false :=
  ⟨rfl, rfl, rfl, rfl⟩

/-- Claim C4: processing one candidate (decide, then `update_state` with
that decision) either decrements `capacity_remaining` by one and bumps
the accepted count of every carried recognized attribute (accept), or
increments `reject_count` by one (reject) — never both, never neither —
and changes no other state field. -/
theorem update_state_frame (s : GameState) (cand : Candidate) (d : Bool)
    (hd : makeDecision s cand = .ok d) (hnodup : (cand.map Prod.fst).Nodup) :
    (d = true →
      (updateState d cand s).R = s.R - 1 ∧
      (updateState d cand s).rejects = s.rejects ∧
      (∀ a, dlookup a (updateState d cand s).accepted_counts =
        if (a, true) ∈ cand ∧ (dlookup a s.accepted_counts).isSome
        then (dlookup a s.accepted_counts).map (· + 1)
        else dlookup a s.accepted_counts)) ∧
    (d = false →
      (updateState d cand s).rejects = s.rejects + 1 ∧
      (updateState d cand s).R = s.R ∧
      (updateState d cand s).accepted_counts = s.accepted_counts) ∧
    ((updateState d cand s).p_a = s.p_a ∧
      (updateState d cand s).remaining_required = s.remaining_required ∧
      (updateState d cand s).N = s.N) ∧
    (((updateState d cand s).R = s.R - 1 ∧ (updateState d cand s).rejects = s.rejects) ∨
      ((updateState d cand s).rejects = s.rejects + 1 ∧ (updateState d cand s).R = s.R)) ∧
    ¬((updateState d cand s).R = s.R - 1 ∧
      (updateState d cand s).rejects = s.rejects + 1) := by
  cases d with
  | true =>
    refine ⟨fun _ => ⟨rfl, rfl, fun a => ?_⟩, fun h => absurd h (by simp),
      ⟨rfl, rfl, rfl⟩, Or.inl ⟨rfl, rfl⟩, ?_⟩
    · exact updateCounts_lookup cand s.accepted_counts a hnodup
    · rintro ⟨-, habs⟩
      have h2 : s.rejects = s.rejects + 1 := habs
      omega
  | false =>
    refine ⟨fun h => absurd h (by simp), fun _ => ⟨rfl, rfl, rfl⟩,
      ⟨rfl, rfl, rfl⟩, Or.inr ⟨rfl, rfl⟩, ?_⟩
    rintro ⟨habs, -⟩
    have h2 : s.R = s.R - 1 := habs
    omega

/-- Witness for C4 at the first scenario candidate, which is accepted. -/
theorem update_state_frame_witness :
    makeDecision ⟨[("A", 1/2)], [("A", 2)], [("A", 0)], 3, 0, 3⟩ [("A", true)] = .ok true ∧
    (([("A", true)] : Candidate).map Prod.fst).Nodup ∧
    ((true = true →
      (updateState true [("A", true)] ⟨[("A", 1/2)], [("A", 2)], [("A", 0)], 3, 0, 3⟩).R =
        (3 : ℤ) - 1 ∧
      (updateState true [("A", true)] ⟨[("A", 1/2)], [("A", 2)], [("A", 0)], 3, 0, 3⟩).rejects =
        (0 : ℤ) ∧
      (∀ a, dlookup a
          (updateState true [("A", true)]
            ⟨[("A", 1/2)], [("A", 2)], [("A", 0)], 3, 0, 3⟩).accepted_counts =
        if (a, true) ∈ ([("A", true)] : Candidate) ∧
            (dlookup a ([("A", (0 : ℤ))] : List (String × ℤ))).isSome
        then (dlookup a ([("A", (0 : ℤ))] : List (String × ℤ))).map (· + 1)
        else dlookup a ([("A", (0 : ℤ))] : List (String × ℤ)))) ∧
    (true = false →
      (updateState true [("A", true)] ⟨[("A", 1/2)], [("A", 2)], [("A", 0)], 3, 0, 3⟩).rejects =
        (0 : ℤ) + 1 ∧
      (updateState true [("A", true)] ⟨[("A", 1/2)], [("A", 2)], [("A", 0)], 3, 0, 3⟩).R =
        (3 : ℤ) ∧
      (updateState true [("A", true)]
          ⟨[("A", 1/2)], [("A", 2)], [("A", 0)], 3, 0, 3⟩).accepted_counts =
        [("A", (0 : ℤ))]) ∧
    ((updateState true [("A", true)] ⟨[("A", 1/2)], [("A", 2)], [("A", 0)], 3, 0, 3⟩).p_a =
        [("A", (1 : ℚ)/2)] ∧
      (updateState true [("A", true)]
          ⟨[("A", 1/2)], [("A", 2)], [("A", 0)], 3, 0, 3⟩).remaining_required =
        [("A", (2 : ℤ))] ∧
      (updateState true [("A", true)] ⟨[("A", 1/2)], [("A", 2)], [("A", 0)], 3, 0, 3⟩).N =
        (3 : ℤ)) ∧
    (((updateState true [("A", true)] ⟨[("A", 1/2)], [("A", 2)], [("A", 0)], 3, 0, 3⟩).R =
          (3 : ℤ) - 1 ∧
        (updateState true [("A", true)]
            ⟨[("A", 1/2)], [("A", 2)], [("A", 0)], 3, 0, 3⟩).rejects = (0 : ℤ)) ∨
      ((updateState true [("A", true)]
            ⟨[("A", 1/2)], [("A", 2)], [("A", 0)], 3, 0, 3⟩).rejects = (0 : ℤ) + 1 ∧
        (updateState true [("A", true)] ⟨[("A", 1/2)], [("A", 2)], [("A", 0)], 3, 0, 3⟩).R =
          (3 : ℤ))) ∧
    ¬((updateState true [("A", true)] ⟨[("A", 1/2)], [("A", 2)], [("A", 0)], 3, 0, 3⟩).R =
          (3 : ℤ) - 1 ∧
      (updateState true [("A", true)]
          ⟨[("A", 1/2)], [("A", 2)], [("A", 0)], 3, 0, 3⟩).rejects = (0 : ℤ) + 1)) :=
  ⟨by norm_num [makeDecision, shouldForceAccept, computeExpectedFutureSupply, dlookup],
    by decide,
    update_state_frame ⟨[("A", 1/2)], [("A", 2)], [("A", 0)], 3, 0, 3⟩ [("A", true)] true
      (by norm_num [makeDecision, shouldForceAccept, computeExpectedFutureSupply, dlookup])
      (by decide)⟩

/-- Claim C9: on the scoring path `_compute_alphas` indexes
`remaining_required[a]` for every statistics attribute without a
membership check, so `make_decision` raises `KeyError` as soon as some
statistics attribute has no constraint, and is total when every
statistics attribute has both a constraint and an accepted counter. -/
theorem alphas_missing_constraint_keyerror (s : GameState) (cand : Candidate)
    (hforce : shouldForceAccept s (computeExpectedFutureSupply s) cand = .ok false) :
    ((∃ p ∈ s.p_a, dlookup p.1 s.remaining_required = none) →
      makeDecision s cand = .error .keyError) ∧
    ((∀ p ∈ s.p_a, (dlookup p.1 s.remaining_required).isSome ∧
        (dlookup p.1 s.accepted_counts).isSome) →
      ∃ b, makeDecision s cand = .ok b) := by
  constructor
  · rintro ⟨p, hp, hnone⟩
    cases hca : computeAlphasAux s s.p_a with
    | ok alphas =>
      have h2 := computeAlphasAux_ok_forall s s.p_a alphas hca p hp
      rw [hnone] at h2
      simp at h2
    | error e =>
      have he : e = .keyError := computeAlphasAux_error s s.p_a e hca
      subst he
      simp only [makeDecision, hforce, computeScore, computeAlphas, hca]
      rfl
  · intro hall
    obtain ⟨alphas, halphas⟩ := computeAlphasAux_isOk s s.p_a hall
    refine ⟨decide (0 < sumScore alphas cand) && decide (0 < s.R), ?_⟩
    simp only [makeDecision, hforce, computeScore, computeAlphas, halphas]
    rfl

/-- Witness for C9: statistics know `A` and `C` but only `A` is
constrained; a candidate carrying `A` with `A`'s need already met takes
the scoring path and hits the missing constraint for `C`. -/
theorem alphas_missing_constraint_keyerror_witness :
    shouldForceAccept ⟨[("A", 1/2), ("C", 1/2)], [("A", 0)], [("A", 0), ("C", 0)], 5, 0, 5⟩
      (computeExpectedFutureSupply
        ⟨[("A", 1/2), ("C", 1/2)], [("A", 0)], [("A", 0), ("C", 0)], 5, 0, 5⟩)
      [("A", true)] = .ok false ∧
    (((∃ p ∈ ([("A", (1 : ℚ)/2), ("C", (1 : ℚ)/2)] : List (String × ℚ)),
        dlookup p.1 ([("A", (0 : ℤ))] : List (String × ℤ)) = none) →
      makeDecision ⟨[("A", 1/2), ("C", 1/2)], [("A", 0)], [("A", 0), ("C", 0)], 5, 0, 5⟩
        [("A", true)] = .error .keyError) ∧
    ((∀ p ∈ ([("A", (1 : ℚ)/2), ("C", (1 : ℚ)/2)] : List (String × ℚ)),
        (dlookup p.1 ([("A", (0 : ℤ))] : List (String × ℤ))).isSome ∧
        (dlookup p.1 ([("A", (0 : ℤ)), ("C", (0 : ℤ))] : List (String × ℤ))).isSome) →
      ∃ b, makeDecision ⟨[("A", 1/2), ("C", 1/2)], [("A", 0)], [("A", 0), ("C", 0)], 5, 0, 5⟩
        [("A", true)] = .ok b)) :=
  ⟨by norm_num [shouldForceAccept, computeExpectedFutureSupply, dlookup],
    alphas_missing_constraint_keyerror
      ⟨[("A", 1/2), ("C", 1/2)], [("A", 0)], [("A", 0), ("C", 0)], 5, 0, 5⟩ [("A", true)]
      (by norm_num [shouldForceAccept, computeExpectedFutureSupply, dlookup])⟩

/-- Claim C10: with zero capacity left and an unmet constraint carried
by the candidate, `make_decision` still returns accept (the
`capacity_remaining > 0` test guards only the scoring path), and
`update_state` then drives `capacity_remaining` to `-1`. -/
theorem forced_accept_ignores_capacity :
    ((⟨[("A", 1/2)], [("A", 5)], [("A", 0)], 0, 0, 1000⟩ : GameState)).R = 0 ∧
    makeDecision ⟨[("A", 1/2)], [("A", 5)], [("A", 0)], 0, 0, 1000⟩ [("A", true)] = .ok true ∧
    (updateState true [("A", true)] ⟨[("A", 1/2)], [("A", 5)], [("A", 0)], 0, 0, 1000⟩).R = -1 :=
  ⟨rfl,
    by norm_num [makeDecision, shouldForceAccept, computeExpectedFutureSupply, dlookup],
    rfl⟩

/-- Claim C8: with the same marginals, required counts and accepted
counts, non-negative marginals, and strictly smaller remaining capacity,
a force-accepted candidate stays force-accepted. -/
theorem forced_accept_monotonic (s₁ s₂ : GameState) (cand : Candidate)
    (hpa : s₂.p_a = s₁.p_a) (hrr : s₂.remaining_required = s₁.remaining_required)
    (hac : s₂.accepted_counts = s₁.accepted_counts) (hR : s₂.R < s₁.R)
    (hpos : ∀ p ∈ s₁.p_a, 0 ≤ p.2)
    (hknown : CarriedKnown s₁ cand)
    (h1 : shouldForceAccept s₁ (computeExpectedFutureSupply s₁) cand = .ok true) :
    shouldForceAccept s₂ (computeExpectedFutureSupply s₂) cand = .ok true := by
  have hknown2 : CarriedKnown s₂ cand := by
    intro p hp ht
    rw [hpa, hrr, hac]
    exact hknown p hp ht
  obtain ⟨a, hmem, req, acc, pa, hreq, hacc, hpa', hlt⟩ :=
    (forceAccept_iff s₁ cand hknown).mp h1
  refine (forceAccept_iff s₂ cand hknown2).mpr ⟨a, hmem, req, acc, pa, ?_, ?_, ?_, ?_⟩
  · rw [hrr]; exact hreq
  · rw [hac]; exact hacc
  · rw [hpa]; exact hpa'
  · have hpa0 : 0 ≤ pa := hpos (a, pa) (dlookup_mem hpa')
    have hle : (s₂.R : ℚ) ≤ (s₁.R : ℚ) := by exact_mod_cast le_of_lt hR
    calc (s₂.R : ℚ) * pa ≤ (s₁.R : ℚ) * pa := mul_le_mul_of_nonneg_right hle hpa0
      _ < _ := hlt

/-- Witness for C8: the scenario start state force-accepts an `A`
carrier at capacity 3; the same state at capacity 2 still does. -/
theorem forced_accept_monotonic_witness :
    ((⟨[("A", 1/2)], [("A", 2)], [("A", 0)], 2, 0, 3⟩ : GameState)).p_a =
      ((⟨[("A", 1/2)], [("A", 2)], [("A", 0)], 3, 0, 3⟩ : GameState)).p_a ∧
    ((⟨[("A", 1/2)], [("A", 2)], [("A", 0)], 2, 0, 3⟩ : GameState)).remaining_required =
      ((⟨[("A", 1/2)], [("A", 2)], [("A", 0)], 3, 0, 3⟩ : GameState)).remaining_required ∧
    ((⟨[("A", 1/2)], [("A", 2)], [("A", 0)], 2, 0, 3⟩ : GameState)).accepted_counts =
      ((⟨[("A", 1/2)], [("A", 2)], [("A", 0)], 3, 0, 3⟩ : GameState)).accepted_counts ∧
    ((⟨[("A", 1/2)], [("A", 2)], [("A", 0)], 2, 0, 3⟩ : GameState)).R <
      ((⟨[("A", 1/2)], [("A", 2)], [("A", 0)], 3, 0, 3⟩ : GameState)).R ∧
    (∀ p ∈ ([("A", (1 : ℚ)/2)] : List (String × ℚ)), 0 ≤ p.2) ∧
    CarriedKnown ⟨[("A", 1/2)], [("A", 2)], [("A", 0)], 3, 0, 3⟩ [("A", (true : Bool))] ∧
    shouldForceAccept ⟨[("A", 1/2)], [("A", 2)], [("A", 0)], 3, 0, 3⟩
      (computeExpectedFutureSupply ⟨[("A", 1/2)], [("A", 2)], [("A", 0)], 3, 0, 3⟩)
      [("A", true)] = .ok true ∧
    shouldForceAccept ⟨[("A", 1/2)], [("A", 2)], [("A", 0)], 2, 0, 3⟩
      (computeExpectedFutureSupply ⟨[("A", 1/2)], [("A", 2)], [("A", 0)], 2, 0, 3⟩)
      [("A", true)] = .ok true :=
  ⟨rfl, rfl, rfl, by decide,
    by intro p hp; simp only [List.mem_singleton] at hp; subst hp; norm_num,
    by decide,
    by norm_num [shouldForceAccept, computeExpectedFutureSupply, dlookup],
    forced_accept_monotonic
      ⟨[("A", 1/2)], [("A", 2)], [("A", 0)], 3, 0, 3⟩
      ⟨[("A", 1/2)], [("A", 2)], [("A", 0)], 2, 0, 3⟩
      [("A", true)] rfl rfl rfl (by decide)
      (by intro p hp; simp only [List.mem_singleton] at hp; subst hp; norm_num)
      (by decide)
      (by norm_num [shouldForceAccept, computeExpectedFutureSupply, dlookup])⟩

/-- Claim C5: the `run_game` loop decides a candidate only while the
external status is `"running"`, capacity remains and the reject budget
is not exhausted; along any run from a state with non-negative capacity
the final capacity is non-negative, and a state with zero capacity
processes no candidate at all. -/
theorem driver_loop_guard (s : GameState) (resp : GameResponse)
    (rest : List GameResponse) (h : 0 ≤ s.R) :
    0 ≤ (runLoop s resp rest).1.R ∧
    (∀ q ∈ (runLoop s resp rest).2,
      q.2.status = "running" ∧ 0 < q.1.R ∧ q.1.rejects < MAX_REJECTS) ∧
    (s.R = 0 → runLoop s resp rest = (s, [])) := by
  induction rest generalizing s resp with
  | nil =>
    by_cases hguard : resp.status = "running" ∧ 0 < s.R ∧ s.rejects < MAX_REJECTS
    · have hR0 : s.R ≠ 0 := by have := hguard.2.1; omega
      cases hnp : resp.nextPerson with
      | none =>
        have hres : runLoop s resp [] = (s, []) := by
          rw [runLoop, if_pos hguard, hnp]
        rw [hres]
        exact ⟨h, by simp, fun _ => rfl⟩
      | some person =>
        cases hmd : makeDecision s person.attributes with
        | error e =>
          have hres : runLoop s resp [] = (s, []) := by
            rw [runLoop, if_pos hguard, hnp]
            dsimp only
            rw [hmd]
          rw [hres]
          exact ⟨h, by simp, fun _ => rfl⟩
        | ok d =>
          have hres : runLoop s resp [] =
              (updateState d person.attributes s, [(s, resp)]) := by
            rw [runLoop, if_pos hguard, hnp]
            dsimp only
            rw [hmd]
          rw [hres]
          refine ⟨?_, ?_, fun hz => absurd hz hR0⟩
          · cases d with
            | true =>
              have hupd : (updateState true person.attributes s).R = s.R - 1 := rfl
              rw [hupd]
              have := hguard.2.1
              omega
            | false => exact h
          · intro q hq
            rcases List.mem_singleton.mp hq with rfl
            exact ⟨hguard.1, hguard.2.1, hguard.2.2⟩
    · have hres : runLoop s resp [] = (s, []) := by
        rw [runLoop, if_neg hguard]
      rw [hres]
      exact ⟨h, by simp, fun _ => rfl⟩
  | cons r rs ih =>
    by_cases hguard : resp.status = "running" ∧ 0 < s.R ∧ s.rejects < MAX_REJECTS
    · have hR0 : s.R ≠ 0 := by have := hguard.2.1; omega
      cases hnp : resp.nextPerson with
      | none =>
        have hres : runLoop s resp (r :: rs) = (s, []) := by
          rw [runLoop, if_pos hguard, hnp]
        rw [hres]
        exact ⟨h, by simp, fun _ => rfl⟩
      | some person =>
        cases hmd : makeDecision s person.attributes with
        | error e =>
          have hres : runLoop s resp (r :: rs) = (s, []) := by
            rw [runLoop, if_pos hguard, hnp]
            dsimp only
            rw [hmd]
          rw [hres]
          exact ⟨h, by simp, fun _ => rfl⟩
        | ok d =>
          have hres : runLoop s resp (r :: rs) =
              ((runLoop (updateState d person.attributes s) r rs).1,
                (s, resp) :: (runLoop (updateState d person.attributes s) r rs).2) := by
            rw [runLoop, if_pos hguard, hnp]
            dsimp only
            rw [hmd]
          have hR' : 0 ≤ (updateState d person.attributes s).R := by
            cases d with
            | true =>
              have hupd : (updateState true person.attributes s).R = s.R - 1 := rfl
              rw [hupd]
              have := hguard.2.1
              omega
            | false => exact h
          obtain ⟨ih1, ih2, -⟩ := ih (updateState d person.attributes s) r hR'
          rw [hres]
          refine ⟨ih1, ?_, fun hz => absurd hz hR0⟩
          intro q hq
          rcases List.mem_cons.mp hq with rfl | hq'
          · exact ⟨hguard.1, hguard.2.1, hguard.2.2⟩
          · exact ih2 q hq'
    · have hres : runLoop s resp (r :: rs) = (s, []) := by
        rw [runLoop, if_neg hguard]
      rw [hres]
      exact ⟨h, by simp, fun _ => rfl⟩

/-- Witness for C5 on a one-response run at the scenario start state. -/
theorem driver_loop_guard_witness :
    (0 : ℤ) ≤ ((⟨[("A", 1/2)], [("A", 2)], [("A", 0)], 3, 0, 3⟩ : GameState)).R ∧
    (0 ≤ (runLoop ⟨[("A", 1/2)], [("A", 2)], [("A", 0)], 3, 0, 3⟩
        ⟨"running", some ⟨0, [("A", true)]⟩⟩ []).1.R ∧
      (∀ q ∈ (runLoop ⟨[("A", 1/2)], [("A", 2)], [("A", 0)], 3, 0, 3⟩
          ⟨"running", some ⟨0, [("A", true)]⟩⟩ []).2,
        q.2.status = "running" ∧ 0 < q.1.R ∧ q.1.rejects < MAX_REJECTS) ∧
      (((⟨[("A", 1/2)], [("A", 2)], [("A", 0)], 3, 0, 3⟩ : GameState)).R = 0 →
        runLoop ⟨[("A", 1/2)], [("A", 2)], [("A", 0)], 3, 0, 3⟩
          ⟨"running", some ⟨0, [("A", true)]⟩⟩ [] =
          (⟨[("A", 1/2)], [("A", 2)], [("A", 0)], 3, 0, 3⟩, []))) :=
  ⟨by decide,
    driver_loop_guard ⟨[("A", 1/2)], [("A", 2)], [("A", 0)], 3, 0, 3⟩
      ⟨"running", some ⟨0, [("A", true)]⟩⟩ [] (by decide)⟩

lemma buildP11Row_lookup (corr : List (String × List (String × ℚ))) (a : String)
    (pa : ℚ) (l : List (String × ℚ)) (row : List (String × ℝ))
    (h : buildP11Row corr a pa l = .ok row) :
    ∀ b pb, dlookup b l = some pb →
      (a = b → dlookup b row = some ((pa : ℝ))) ∧
      (a ≠ b → ∃ rowc rho, dlookup a corr = some rowc ∧ dlookup b rowc = some rho ∧
        ¬(pa * (1 - pa) * pb * (1 - pb) < 0) ∧
        dlookup b row = some ((rho : ℝ) *
          Real.sqrt ((pa * (1 - pa) * pb * (1 - pb) : ℚ) : ℝ) + (pa : ℝ) * (pb : ℝ))) := by
  induction l generalizing row with
  | nil =>
    intro b pb hb
    simp [dlookup] at hb
  | cons hd rest ih =>
    obtain ⟨b0, pb0⟩ := hd
    rw [buildP11Row] at h
    by_cases hab0 : a = b0
    · rw [if_pos hab0] at h
      cases hrec : buildP11Row corr a pa rest with
      | error e => rw [hrec] at h; exact absurd h (by simp)
      | ok r =>
        rw [hrec] at h
        cases h
        intro b pb hb
        rw [dlookup] at hb
        by_cases hb0b : b0 = b
        · rw [if_pos hb0b] at hb
          cases hb
          constructor
          · intro _
            rw [dlookup, if_pos hb0b]
          · intro hne
            exact absurd (hab0.trans hb0b) hne
        · rw [if_neg hb0b] at hb
          have hih := ih r hrec b pb hb
          constructor
          · intro hab
            rw [dlookup, if_neg hb0b]
            exact hih.1 hab
          · intro hne
            obtain ⟨rowc, rho, h1, h2, h3, h4⟩ := hih.2 hne
            exact ⟨rowc, rho, h1, h2, h3, by rw [dlookup, if_neg hb0b]; exact h4⟩
    · rw [if_neg hab0] at h
      cases hc : dlookup a corr with
      | none => rw [hc] at h; exact absurd h (by simp)
      | some rowc0 =>
        rw [hc] at h
        dsimp only at h
        cases hrho : dlookup b0 rowc0 with
        | none => rw [hrho] at h; exact absurd h (by simp)
        | some rho0 =>
          rw [hrho] at h
          dsimp only at h
          by_cases harg : pa * (1 - pa) * pb0 * (1 - pb0) < 0
          · rw [pySqrt, if_pos harg] at h
            exact absurd h (by simp)
          · rw [pySqrt, if_neg harg] at h
            dsimp only at h
            cases hrec : buildP11Row corr a pa rest with
            | error e => rw [hrec] at h; exact absurd h (by simp)
            | ok r =>
              rw [hrec] at h
              cases h
              intro b pb hb
              rw [dlookup] at hb
              by_cases hb0b : b0 = b
              · rw [if_pos hb0b] at hb
                cases hb
                subst hb0b
                constructor
                · intro hab
                  exact absurd hab hab0
                · intro _
                  exact ⟨rowc0, rho0, rfl, hrho, harg, by rw [dlookup, if_pos rfl]⟩
              · rw [if_neg hb0b] at hb
                have hih := ih r hrec b pb hb
                constructor
                · intro hab
                  rw [dlookup, if_neg hb0b]
                  exact hih.1 hab
                · intro hne
                  obtain ⟨rowc, rho, h1, h2, h3, h4⟩ := hih.2 hne
                  rw [hc] at h1
                  exact ⟨rowc, rho, h1, h2, h3, by rw [dlookup, if_neg hb0b]; exact h4⟩

lemma initP11Aux_lookup (corr : List (String × List (String × ℚ)))
    (all l : List (String × ℚ)) (t : List (String × List (String × ℝ)))
    (h : initP11Aux corr all l = .ok t) :
    ∀ a pa, dlookup a l = some pa →
      ∃ row, dlookup a t = some row ∧ buildP11Row corr a pa all = .ok row := by
  induction l generalizing t with
  | nil =>
    intro a pa ha
    simp [dlookup] at ha
  | cons hd rest ih =>
    obtain ⟨a0, pa0⟩ := hd
    rw [initP11Aux] at h
    cases hrow : buildP11Row corr a0 pa0 all with
    | error e => rw [hrow] at h; exact absurd h (by simp)
    | ok row0 =>
      rw [hrow] at h
      cases hrec : initP11Aux corr all rest with
      | error e => rw [hrec] at h; exact absurd h (by simp)
      | ok t' =>
        rw [hrec] at h
        cases h
        intro a pa ha
        rw [dlookup] at ha
        by_cases ha0 : a0 = a
        · rw [if_pos ha0] at ha
          cases ha
          subst ha0
          exact ⟨row0, by rw [dlookup, if_pos rfl], hrow⟩
        · rw [if_neg ha0] at ha
          obtain ⟨row, hrow', hb⟩ := ih t' hrec a pa ha
          exact ⟨row, by rw [dlookup, if_neg ha0]; exact hrow', hb⟩

lemma buildP11Row_error_keyError (corr : List (String × List (String × ℚ)))
    (a : String) (pa : ℚ) (l : List (String × ℚ))
    (hpa : 0 < pa ∧ pa < 1) (hl : ∀ p ∈ l, 0 < p.2 ∧ p.2 < 1)
    (e : PyErr) (h : buildP11Row corr a pa l = .error e) : e = .keyError := by
  induction l with
  | nil => exact absurd h (by simp [buildP11Row])
  | cons hd rest ih =>
    obtain ⟨b0, pb0⟩ := hd
    have hrest : ∀ p ∈ rest, 0 < p.2 ∧ p.2 < 1 :=
      fun p hp => hl p (List.mem_cons_of_mem _ hp)
    rw [buildP11Row] at h
    by_cases hab0 : a = b0
    · rw [if_pos hab0] at h
      cases hrec : buildP11Row corr a pa rest with
      | error e' =>
        rw [hrec] at h
        cases h
        exact ih hrest hrec
      | ok r => rw [hrec] at h; exact absurd h (by simp)
    · rw [if_neg hab0] at h
      cases hc : dlookup a corr with
      | none =>
        rw [hc] at h
        cases h
        rfl
      | some rowc0 =>
        rw [hc] at h
        dsimp only at h
        cases hrho : dlookup b0 rowc0 with
        | none =>
          rw [hrho] at h
          cases h
          rfl
        | some rho0 =>
          rw [hrho] at h
          have hpb0 : 0 < pb0 ∧ pb0 < 1 := hl (b0, pb0) (List.mem_cons_self _ _)
          have hargpos : 0 < pa * (1 - pa) * pb0 * (1 - pb0) := by
            have h1 : (0 : ℚ) < 1 - pa := by linarith [hpa.2]
            have h2 : (0 : ℚ) < 1 - pb0 := by linarith [hpb0.2]
            have h3 := mul_pos (mul_pos (mul_pos hpa.1 h1) hpb0.1) h2
            exact h3
          rw [pySqrt, if_neg (not_lt.mpr (le_of_lt hargpos))] at h
          dsimp only at h
          cases hrec : buildP11Row corr a pa rest with
          | error e' =>
            rw [hrec] at h
            cases h
            exact ih hrest hrec
          | ok r => rw [hrec] at h; exact absurd h (by simp)

lemma initP11Aux_error_keyError (corr : List (String × List (String × ℚ)))
    (all l : List (String × ℚ))
    (hall : ∀ p ∈ all, 0 < p.2 ∧ p.2 < 1) (hl : ∀ p ∈ l, 0 < p.2 ∧ p.2 < 1)
    (e : PyErr) (h : initP11Aux corr all l = .error e) : e = .keyError := by
  induction l with
  | nil => exact absurd h (by simp [initP11Aux])
  | cons hd rest ih =>
    obtain ⟨a0, pa0⟩ := hd
    have hrest : ∀ p ∈ rest, 0 < p.2 ∧ p.2 < 1 :=
      fun p hp => hl p (List.mem_cons_of_mem _ hp)
    have hpa0 : 0 < pa0 ∧ pa0 < 1 := hl (a0, pa0) (List.mem_cons_self _ _)
    rw [initP11Aux] at h
    cases hrow : buildP11Row corr a0 pa0 all with
    | error e' =>
      rw [hrow] at h
      cases h
      exact buildP11Row_error_keyError corr a0 pa0 all hpa0 hall e hrow
    | ok row0 =>
      rw [hrow] at h
      cases hrec : initP11Aux corr all rest with
      | error e' =>
        rw [hrec] at h
        cases h
        exact ih hrest hrec
      | ok t' => rw [hrec] at h; exact absurd h (by simp)

/-- Claim C6: in the constructed joint table, `joint11[a][b]` equals
`correlation[a][b] * sqrt(marginal[a]*(1-marginal[a])*marginal[b]*(1-marginal[b]))
+ marginal[a]*marginal[b]` for `a ≠ b`, the diagonal entry is exactly the
marginal, and the table is symmetric wherever the correlation input is. -/
theorem joint_probability_table (stats : Stats)
    (t : List (String × List (String × ℝ))) (a b : String) (pa pb rho : ℚ)
    (ht : initializeProbabilities stats = .ok t)
    (hpa : dlookup a stats.relativeFrequencies = some pa)
    (hpb : dlookup b stats.relativeFrequencies = some pb)
    (hab : a ≠ b)
    (hrho : ∃ rowc, dlookup a stats.correlations = some rowc ∧ dlookup b rowc = some rho) :
    ∃ rowa, dlookup a t = some rowa ∧
      dlookup b rowa = some ((rho : ℝ) *
        Real.sqrt ((pa * (1 - pa) * pb * (1 - pb) : ℚ) : ℝ) + (pa : ℝ) * (pb : ℝ)) ∧
      dlookup a rowa = some ((pa : ℝ)) ∧
      ((∃ rowc2, dlookup b stats.correlations = some rowc2 ∧ dlookup a rowc2 = some rho) →
        ∃ rowb, dlookup b t = some rowb ∧ dlookup a rowb = dlookup b rowa) := by
  rw [initializeProbabilities] at ht
  obtain ⟨rowa, hta, hba⟩ :=
    initP11Aux_lookup stats.correlations stats.relativeFrequencies
      stats.relativeFrequencies t ht a pa hpa
  obtain ⟨rowc, hc1, hc2⟩ := hrho
  obtain ⟨rowc', rho', hc1', hc2', harg, hlb⟩ :=
    (buildP11Row_lookup stats.correlations a pa stats.relativeFrequencies rowa hba
      b pb hpb).2 hab
  rw [hc1] at hc1'
  cases hc1'
  rw [hc2] at hc2'
  cases hc2'
  have hdiag :=
    (buildP11Row_lookup stats.correlations a pa stats.relativeFrequencies rowa hba
      a pa hpa).1 rfl
  refine ⟨rowa, hta, hlb, hdiag, ?_⟩
  rintro ⟨rowc2, hb1, hb2⟩
  obtain ⟨rowb, htb, hbb⟩ :=
    initP11Aux_lookup stats.correlations stats.relativeFrequencies
      stats.relativeFrequencies t ht b pb hpb
  obtain ⟨rowc2', rho2', hb1', hb2', harg2, hlab⟩ :=
    (buildP11Row_lookup stats.correlations b pb stats.relativeFrequencies rowb hbb
      a pa hpa).2 (Ne.symm hab)
  rw [hb1] at hb1'
  cases hb1'
  rw [hb2] at hb2'
  cases hb2'
  refine ⟨rowb, htb, ?_⟩
  rw [hlab, hlb]
  have hargeq : ((pb * (1 - pb) * pa * (1 - pa) : ℚ) : ℝ) =
      ((pa * (1 - pa) * pb * (1 - pb) : ℚ) : ℝ) := by
    push_cast
    ring
  rw [hargeq]
  congr 1
  ring

/-- Witness for C6 on a two-attribute statistics payload with a
symmetric correlation of 1/4. -/
theorem joint_probability_table_witness :
    dlookup "A" (⟨[("A", 1/2), ("B", 1/3)],
      [("A", [("B", 1/4)]), ("B", [("A", 1/4)])]⟩ : Stats).relativeFrequencies =
      some (1/2) ∧
    dlookup "B" (⟨[("A", 1/2), ("B", 1/3)],
      [("A", [("B", 1/4)]), ("B", [("A", 1/4)])]⟩ : Stats).relativeFrequencies =
      some (1/3) ∧
    ("A" : String) ≠ "B" ∧
    (∃ rowc, dlookup "A" (⟨[("A", 1/2), ("B", 1/3)],
        [("A", [("B", 1/4)]), ("B", [("A", 1/4)])]⟩ : Stats).correlations = some rowc ∧
      dlookup "B" rowc = some (1/4)) ∧
    ∃ t, initializeProbabilities ⟨[("A", 1/2), ("B", 1/3)],
        [("A", [("B", 1/4)]), ("B", [("A", 1/4)])]⟩ = .ok t ∧
      ∃ rowa, dlookup "A" t = some rowa ∧
        dlookup "B" rowa = some ((((1 : ℚ)/4 : ℚ) : ℝ) *
          Real.sqrt ((((1 : ℚ)/2 * (1 - (1 : ℚ)/2) * ((1 : ℚ)/3) * (1 - (1 : ℚ)/3)) : ℚ) : ℝ) +
          (((1 : ℚ)/2 : ℚ) : ℝ) * (((1 : ℚ)/3 : ℚ) : ℝ)) ∧
        dlookup "A" rowa = some (((1 : ℚ)/2 : ℚ) : ℝ) ∧
        ((∃ rowc2, dlookup "B" (⟨[("A", 1/2), ("B", 1/3)],
            [("A", [("B", 1/4)]), ("B", [("A", 1/4)])]⟩ : Stats).correlations = some rowc2 ∧
          dlookup "A" rowc2 = some (1/4)) →
        ∃ rowb, dlookup "B" t = some rowb ∧ dlookup "A" rowb = dlookup "B" rowa) := by
  have ht : initializeProbabilities ⟨[("A", 1/2), ("B", 1/3)],
      [("A", [("B", 1/4)]), ("B", [("A", 1/4)])]⟩ =
      .ok [("A", [("A", (((1 : ℚ)/2 : ℚ) : ℝ)),
          ("B", (((1 : ℚ)/4 : ℚ) : ℝ) *
            Real.sqrt ((((1 : ℚ)/2 * (1 - (1 : ℚ)/2) * ((1 : ℚ)/3) * (1 - (1 : ℚ)/3)) : ℚ) : ℝ) +
            (((1 : ℚ)/2 : ℚ) : ℝ) * (((1 : ℚ)/3 : ℚ) : ℝ))]),
        ("B", [("A", (((1 : ℚ)/4 : ℚ) : ℝ) *
            Real.sqrt ((((1 : ℚ)/3 * (1 - (1 : ℚ)/3) * ((1 : ℚ)/2) * (1 - (1 : ℚ)/2)) : ℚ) : ℝ) +
            (((1 : ℚ)/3 : ℚ) : ℝ) * (((1 : ℚ)/2 : ℚ) : ℝ)),
          ("B", (((1 : ℚ)/3 : ℚ) : ℝ))])] := by
    norm_num [initializeProbabilities, initP11Aux, buildP11Row, pySqrt, dlookup,
      show ("A" : String) ≠ "B" from by decide, show ("B" : String) ≠ "A" from by decide]
  refine ⟨rfl, rfl, by decide, ⟨[("B", (1 : ℚ)/4)], rfl, rfl⟩, _, ht, ?_⟩
  exact joint_probability_table
    ⟨[("A", 1/2), ("B", 1/3)], [("A", [("B", 1/4)]), ("B", [("A", 1/4)])]⟩
    _ "A" "B" (1/2) (1/3) (1/4) ht rfl rfl (by decide) ⟨[("B", (1 : ℚ)/4)], rfl, rfl⟩

/-- Claim C7 counterexample: a single-attribute statistics payload with
marginal 2 — outside (0,1) — constructs successfully with no error of
any kind (the diagonal entry never computes a square root), refuting
"construction fails with a ConfigError whenever any marginal lies
outside (0,1)". -/
theorem config_validation_counterexample :
    initializeProbabilities ⟨[("A", 2)], []⟩ = .ok [("A", [("A", ((2 : ℚ) : ℝ))])] ∧
    ¬((0 : ℚ) < 2 ∧ (2 : ℚ) < 1) := by
  refine ⟨rfl, ?_⟩
  rintro ⟨-, h2⟩
  norm_num at h2

/-- Claim C7 (amended): the probability-model construction performs no
range validation (see the counterexample); a missing required
correlation entry makes it fail with a `KeyError` (given in-range
marginals, which rule out the `ValueError` from `math.sqrt`), and
looking up the marginal of an unknown attribute is likewise a
`KeyError` — the code defines no `ConfigError` at all. -/
theorem probability_model_error_behavior :
    (∀ (stats : Stats) (attr : String),
      dlookup attr stats.relativeFrequencies = none →
      marginalLookup stats attr = .error .keyError) ∧
    (∀ stats : Stats, (∀ p ∈ stats.relativeFrequencies, 0 < p.2 ∧ p.2 < 1) →
      (∃ a pa b pb, dlookup a stats.relativeFrequencies = some pa ∧
        dlookup b stats.relativeFrequencies = some pb ∧ a ≠ b ∧
        (dlookup a stats.correlations = none ∨
          ∃ rowc, dlookup a stats.correlations = some rowc ∧ dlookup b rowc = none)) →
      initializeProbabilities stats = .error .keyError) := by
  constructor
  · intro stats attr h
    rw [marginalLookup, h]
  · rintro stats hrange ⟨a, pa, b, pb, hpa, hpb, hab, hmiss⟩
    cases hres : initializeProbabilities stats with
    | ok t =>
      exfalso
      rw [initializeProbabilities] at hres
      obtain ⟨rowa, -, hba⟩ := initP11Aux_lookup stats.correlations
        stats.relativeFrequencies stats.relativeFrequencies t hres a pa hpa
      obtain ⟨rowc, rho, hc1, hc2, -, -⟩ :=
        (buildP11Row_lookup stats.correlations a pa stats.relativeFrequencies rowa hba
          b pb hpb).2 hab
      rcases hmiss with hnone | ⟨rowc', hsome, hbnone⟩
      · rw [hnone] at hc1
        cases hc1
      · rw [hsome] at hc1
        cases hc1
        rw [hbnone] at hc2
        cases hc2
    | error e =>
      rw [initializeProbabilities] at hres
      have he := initP11Aux_error_keyError stats.correlations
        stats.relativeFrequencies stats.relativeFrequencies hrange hrange e hres
      rw [he]

/-- Witness for C7's amended claim: an unknown-attribute marginal lookup
and a two-attribute payload with an empty correlation table. -/
theorem probability_model_error_behavior_witness :
    dlookup "B" ((⟨[("A", 1/2)], []⟩ : Stats)).relativeFrequencies = none ∧
    marginalLookup ⟨[("A", 1/2)], []⟩ "B" = .error .keyError ∧
    (∀ p ∈ ((⟨[("A", 1/2), ("B", 1/2)], []⟩ : Stats)).relativeFrequencies,
      0 < p.2 ∧ p.2 < 1) ∧
    (∃ a pa b pb,
      dlookup a ((⟨[("A", 1/2), ("B", 1/2)], []⟩ : Stats)).relativeFrequencies = some pa ∧
      dlookup b ((⟨[("A", 1/2), ("B", 1/2)], []⟩ : Stats)).relativeFrequencies = some pb ∧
      a ≠ b ∧
      (dlookup a ((⟨[("A", 1/2), ("B", 1/2)], []⟩ : Stats)).correlations = none ∨
        ∃ rowc, dlookup a ((⟨[("A", 1/2), ("B", 1/2)], []⟩ : Stats)).correlations =
          some rowc ∧ dlookup b rowc = none)) ∧
    initializeProbabilities ⟨[("A", 1/2), ("B", 1/2)], []⟩ = .error .keyError := by
  have hrange : ∀ p ∈ ((⟨[("A", 1/2), ("B", 1/2)], []⟩ : Stats)).relativeFrequencies,
      0 < p.2 ∧ p.2 < 1 := by
    intro p hp
    rcases List.mem_cons.mp hp with rfl | hp2
    · constructor <;> norm_num
    · rcases List.mem_singleton.mp hp2 with rfl
      constructor <;> norm_num
  have hmiss : ∃ a pa b pb,
      dlookup a ((⟨[("A", 1/2), ("B", 1/2)], []⟩ : Stats)).relativeFrequencies = some pa ∧
      dlookup b ((⟨[("A", 1/2), ("B", 1/2)], []⟩ : Stats)).relativeFrequencies = some pb ∧
      a ≠ b ∧
      (dlookup a ((⟨[("A", 1/2), ("B", 1/2)], []⟩ : Stats)).correlations = none ∨
        ∃ rowc, dlookup a ((⟨[("A", 1/2), ("B", 1/2)], []⟩ : Stats)).correlations =
          some rowc ∧ dlookup b rowc = none) :=
    ⟨"A", 1/2, "B", 1/2, rfl, rfl, by decide, Or.inl rfl⟩
  exact ⟨rfl,
    probability_model_error_behavior.1 ⟨[("A", 1/2)], []⟩ "B" rfl,
    hrange, hmiss,
    probability_model_error_behavior.2 ⟨[("A", 1/2), ("B", 1/2)], []⟩ hrange hmiss⟩

end Berghain
